import Mathlib

/-!
Verification of the batch transcription pipeline of the
`whisper-transcriber-app-v2` repository.

The development shallowly embeds the Python code of
`whisper_tools/transcribe_batch.py` and `whisper_tools/transcribe_file.py`:

* paths are lists of components (`RelPath`), the filesystem is the list of
  files that exist (`FS`);
* `pathlib.Path.suffix` / `.stem` are embedded by the formulas used in
  `pathlib` (`pySuffix`, `pyStem`);
* the opaque Whisper engine is an abstract `Gateway` returning either a
  transcription triple (text, segments, metadata) or an error string, exactly
  as `transcribe_file` returns the triple on line 253/258 of
  `transcribe_file.py`;
* Python's tuple unpacking `text, segments = <3-tuple>` is embedded by
  `unpack2` over the value list of the returned tuple, which faithfully
  raises `ValueError: too many values to unpack (expected 2)` on a 3-element
  tuple;
* exceptions are `Except String`; the `try/except` of `process_single_file`
  becomes a total function that maps an error of the try body to the
  `失败 ...` result pair.
-/

namespace WhisperTools

/-! ## Generic string helpers (substring test, as Python's `x in s`) -/

/-- Boolean substring test on character lists: some index of `hay` starts an
occurrence of `needle`.  Embeds Python's `needle in hay` on strings. -/
def hasSubChars (hay needle : List Char) : Bool :=
  (List.range (hay.length + 1)).any fun i =>
    decide ((hay.drop i).take needle.length = needle)

/-- Boolean substring test on strings, via the character lists. -/
def hasSub (hay needle : String) : Bool :=
  hasSubChars hay.toList needle.toList

theorem hasSubChars_spec {hay needle : List Char} :
    hasSubChars hay needle = true ↔
      ∃ i, i ≤ hay.length ∧ (hay.drop i).take needle.length = needle := by
  unfold hasSubChars
  simp only [List.any_eq_true, List.mem_range, decide_eq_true_eq]
  constructor
  · rintro ⟨i, hi, h⟩
    exact ⟨i, Nat.lt_succ_iff.mp hi, h⟩
  · rintro ⟨i, hi, h⟩
    exact ⟨i, Nat.lt_succ_iff.mpr hi, h⟩

theorem hasSubChars_append_left {hay needle : List Char} (pre : List Char)
    (h : hasSubChars hay needle = true) :
    hasSubChars (pre ++ hay) needle = true := by
  rcases hasSubChars_spec.mp h with ⟨i, hi, hit⟩
  refine hasSubChars_spec.mpr ⟨pre.length + i, ?_, ?_⟩
  · simp only [List.length_append]
    omega
  · rw [List.drop_append, hit]

theorem hasSubChars_append_right {hay needle : List Char} (post : List Char)
    (h : hasSubChars hay needle = true) :
    hasSubChars (hay ++ post) needle = true := by
  rcases hasSubChars_spec.mp h with ⟨i, hi, hit⟩
  refine hasSubChars_spec.mpr ⟨i, ?_, ?_⟩
  · simp only [List.length_append]
    omega
  · rw [List.drop_append_of_le_length hi]
    have hlen : needle.length ≤ (hay.drop i).length := by
      have := congrArg List.length hit
      simp only [List.length_take] at this
      omega
    rw [List.take_append_of_le_length hlen, hit]

theorem hasSub_append_left {hay needle : String} (pre : String)
    (h : hasSub hay needle = true) : hasSub (pre ++ hay) needle = true := by
  unfold hasSub at *
  have : (pre ++ hay).toList = pre.toList ++ hay.toList := by
    simp [String.toList]
  rw [this]
  exact hasSubChars_append_left _ h

theorem hasSub_append_right {hay needle : String} (post : String)
    (h : hasSub hay needle = true) : hasSub (hay ++ post) needle = true := by
  unfold hasSub at *
  have : (hay ++ post).toList = hay.toList ++ post.toList := by
    simp [String.toList]
  rw [this]
  exact hasSubChars_append_right _ h

/-! ## Paths and the `pathlib` formulas -/

/-- A filesystem path, relative to some base, as its list of components. -/
abbrev RelPath := List String

/-- The set of files that exist, as a list of paths. -/
abbrev FS := List RelPath

/-- The final component of a path (`Path.name`). -/
def fileName (p : RelPath) : String := p.getLastD ""

/-- The index of the last occurrence of `c`, as Python's `str.rfind`
(`none` for Python's `-1`). -/
def pyRFind (cs : List Char) (c : Char) : Option Nat :=
  ((List.range cs.length).filter fun i => decide (cs.getD i ' ' = c)).getLast?

/-- `pathlib.PurePath.suffix`: `name[i:]` where `i = name.rfind('.')`, when
`0 < i < len(name) - 1`, otherwise the empty string. -/
def pySuffix (name : String) : String :=
  let cs := name.toList
  match pyRFind cs '.' with
  | some i => if 0 < i ∧ i < cs.length - 1 then String.mk (cs.drop i) else ""
  | none => ""

/-- `pathlib.PurePath.stem`: the name with its suffix removed. -/
def pyStem (name : String) : String :=
  name.dropRight (pySuffix name).length

/-- Lower-casing as Python's `str.lower` on the ASCII extensions involved:
character-wise `Char.toLower`. -/
def strLower (s : String) : String := String.mk (s.toList.map Char.toLower)

/-- The string Python prints for a relative `PosixPath`. -/
def relString (p : RelPath) : String := String.intercalate "/" p

/-! ## File-type classification (`transcribe_file.py`, lines 77-90) -/

/-- `AUDIO_EXTENSIONS` of `transcribe_file.py`. -/
def AUDIO_EXTENSIONS : List String :=
  [".mp3", ".wav", ".flac", ".aac", ".ogg", ".m4a", ".wma"]

/-- `VIDEO_EXTENSIONS` of `transcribe_file.py`. -/
def VIDEO_EXTENSIONS : List String :=
  [".mp4", ".avi", ".mov", ".mkv", ".flv", ".wmv", ".webm", ".m4v"]

/-- `is_audio`: the lower-cased suffix is in the audio set. -/
def is_audio (p : RelPath) : Bool :=
  AUDIO_EXTENSIONS.contains (strLower (pySuffix (fileName p)))

/-- `is_video`: the lower-cased suffix is in the video set. -/
def is_video (p : RelPath) : Bool :=
  VIDEO_EXTENSIONS.contains (strLower (pySuffix (fileName p)))

/-! ## Path ordering

Python's `sorted` on `pathlib` paths compares the tuples of components,
lexicographically, each component by its string order (code-point
lexicographic).  `pathLeb` is that comparison; since it is antisymmetric,
the sorted permutation is unique and any sorting algorithm models
`sorted`. -/

/-- Code-point lexicographic strict comparison of character lists:
Python's `<` on strings. -/
def charListLtb : List Char → List Char → Bool
  | _, [] => false
  | [], _ :: _ => true
  | a :: as, b :: bs => if a < b then true else if a = b then charListLtb as bs else false

/-- Python's `<` on strings. -/
def strLtb (a b : String) : Bool := charListLtb a.toList b.toList

theorem charListLtb_irrefl (a : List Char) : charListLtb a a = false := by
  induction a with
  | nil => rfl
  | cons c cs ih => simp [charListLtb, ih]

theorem charListLtb_trans {a b c : List Char}
    (h1 : charListLtb a b = true) (h2 : charListLtb b c = true) :
    charListLtb a c = true := by
  induction a generalizing b c with
  | nil =>
    cases c with
    | nil => cases b <;> simp [charListLtb] at h1 h2
    | cons _ _ => rfl
  | cons x xs ih =>
    cases b with
    | nil => simp [charListLtb] at h1
    | cons y ys =>
      cases c with
      | nil => simp [charListLtb] at h2
      | cons z zs =>
        simp only [charListLtb] at h1 h2 ⊢
        by_cases hxy : x < y
        · by_cases hyz : y < z
          · rw [if_pos (lt_trans hxy hyz)]
          · rw [if_neg hyz] at h2
            by_cases hyz2 : y = z
            · rw [if_pos (hyz2 ▸ hxy)]
            · rw [if_neg hyz2] at h2
              cases h2
        · rw [if_neg hxy] at h1
          by_cases hxy2 : x = y
          · subst hxy2
            rw [if_pos rfl] at h1
            by_cases hyz : x < z
            · rw [if_pos hyz]
            · rw [if_neg hyz] at h2 ⊢
              by_cases hyz2 : x = z
              · rw [if_pos hyz2] at h2 ⊢
                exact ih h1 h2
              · rw [if_neg hyz2] at h2
                cases h2
          · rw [if_neg hxy2] at h1
            cases h1

theorem charListLtb_total3 (a b : List Char) :
    charListLtb a b = true ∨ a = b ∨ charListLtb b a = true := by
  induction a generalizing b with
  | nil =>
    cases b with
    | nil => exact Or.inr (Or.inl rfl)
    | cons _ _ => exact Or.inl rfl
  | cons x xs ih =>
    cases b with
    | nil => exact Or.inr (Or.inr rfl)
    | cons y ys =>
      rcases lt_trichotomy x y with h | h | h
      · exact Or.inl (by simp [charListLtb, h])
      · subst h
        rcases ih ys with h2 | h2 | h2
        · exact Or.inl (by simp [charListLtb, h2])
        · exact Or.inr (Or.inl (by rw [h2]))
        · exact Or.inr (Or.inr (by simp [charListLtb, h2]))
      · exact Or.inr (Or.inr (by simp [charListLtb, h]))

theorem charListLtb_asymm {a b : List Char} (h : charListLtb a b = true) :
    ¬ charListLtb b a = true := by
  intro hba
  have := charListLtb_trans h hba
  rw [charListLtb_irrefl] at this
  cases this

theorem strLtb_irrefl (a : String) : strLtb a a = false :=
  charListLtb_irrefl a.toList

theorem strLtb_trans {a b c : String} (h1 : strLtb a b = true)
    (h2 : strLtb b c = true) : strLtb a c = true :=
  charListLtb_trans h1 h2

theorem strLtb_asymm {a b : String} (h : strLtb a b = true) :
    ¬ strLtb b a = true :=
  charListLtb_asymm h

theorem strLtb_total3 (a b : String) :
    strLtb a b = true ∨ a = b ∨ strLtb b a = true := by
  rcases charListLtb_total3 a.toList b.toList with h | h | h
  · exact Or.inl h
  · refine Or.inr (Or.inl ?_)
    cases a
    cases b
    simp only [String.toList] at h
    exact congrArg String.mk h
  · exact Or.inr (Or.inr h)

/-- Lexicographic comparison of component lists, components compared as
strings. -/
def pathLeb : RelPath → RelPath → Bool
  | [], _ => true
  | _ :: _, [] => false
  | a :: as, b :: bs => if strLtb a b then true else if a = b then pathLeb as bs else false

/-- The path order as a relation. -/
def pathLe (p q : RelPath) : Prop := pathLeb p q = true

instance : DecidableRel pathLe := fun p q =>
  (instDecidableEqBool (pathLeb p q) true : Decidable (pathLe p q))

theorem pathLeb_cons (a b : String) (as bs : RelPath) :
    pathLeb (a :: as) (b :: bs)
      = if strLtb a b then true else if a = b then pathLeb as bs else false := rfl

instance : IsTotal RelPath pathLe where
  total p := by
    induction p with
    | nil => intro q; left; rfl
    | cons a as ih =>
      intro q
      match q with
      | [] => right; rfl
      | b :: bs =>
        rcases strLtb_total3 a b with h | h | h
        · left
          show pathLeb (a :: as) (b :: bs) = true
          rw [pathLeb_cons, if_pos h]
        · subst h
          rcases ih bs with h2 | h2
          · left
            show pathLeb (a :: as) (a :: bs) = true
            rw [pathLeb_cons, if_neg (by simp [strLtb_irrefl]), if_pos rfl]
            exact h2
          · right
            show pathLeb (a :: bs) (a :: as) = true
            rw [pathLeb_cons, if_neg (by simp [strLtb_irrefl]), if_pos rfl]
            exact h2
        · right
          show pathLeb (b :: bs) (a :: as) = true
          rw [pathLeb_cons, if_pos h]

instance : IsTrans RelPath pathLe where
  trans p := by
    induction p with
    | nil => intro q r _ _; rfl
    | cons a as ih =>
      intro q r h1 h2
      match q, r with
      | [], _ => exact absurd h1 (by simp [pathLe, pathLeb])
      | _ :: _, [] => exact absurd h2 (by simp [pathLe, pathLeb])
      | b :: bs, c :: cs =>
        have h1a : pathLeb (a :: as) (b :: bs) = true := h1
        have h2a : pathLeb (b :: bs) (c :: cs) = true := h2
        rw [pathLeb_cons] at h1a h2a
        show pathLeb (a :: as) (c :: cs) = true
        rw [pathLeb_cons]
        by_cases hab : strLtb a b = true
        · by_cases hbc : strLtb b c = true
          · rw [if_pos (strLtb_trans hab hbc)]
          · rw [if_neg hbc] at h2a
            by_cases hbc2 : b = c
            · rw [if_pos (hbc2 ▸ hab)]
            · rw [if_neg hbc2] at h2a
              cases h2a
        · rw [if_neg hab] at h1a
          by_cases hab2 : a = b
          · subst hab2
            rw [if_pos rfl] at h1a
            by_cases hbc : strLtb a c = true
            · rw [if_pos hbc]
            · rw [if_neg hbc] at h2a ⊢
              by_cases hbc2 : a = c
              · rw [if_pos hbc2] at h2a ⊢
                exact ih bs cs h1a h2a
              · rw [if_neg hbc2] at h2a
                cases h2a
          · rw [if_neg hab2] at h1a
            cases h1a

/-- `sorted(media_files)` of `find_media_files` (line 65). -/
def sortPaths (l : List RelPath) : List RelPath := List.insertionSort pathLe l

/-! ## Media discovery (`find_media_files`, `transcribe_batch.py` lines 38-65)

A directory tree is a list of entries: relative paths (length ≥ 1) of all
descendants of the root together with an is-file flag.  The glob `"*"`
(non-recursive) reaches exactly the entries of depth 1, `"**/*"` all of
them. -/

/-- An entry of the scanned directory tree. -/
structure Entry where
  path : RelPath
  isFile : Bool
deriving DecidableEq

/-- Which entries the chosen glob pattern enumerates. -/
def globScope (recursive : Bool) (e : Entry) : Bool :=
  if recursive then true else decide (e.path.length = 1)

/-- `find_media_files`: glob, keep files whose type is audio or video and
(when a filter set is given) whose lower-cased suffix is in it, then sort. -/
def find_media_files (dir : List Entry) (recursive : Bool)
    (extensions : Option (List String)) : List RelPath :=
  sortPaths ((dir.filter fun e =>
    globScope recursive e && e.isFile && (is_audio e.path || is_video e.path) &&
    (match extensions with
     | none => true
     | some exts => exts.contains (strLower (pySuffix (fileName e.path))))).map Entry.path)

/-- Normalization of one caller-supplied extension
(`transcribe_batch.py` lines 194-195): lower case, leading dot added when
missing. -/
def normalizeExt (ext : String) : String :=
  if ext.startsWith "." then strLower ext else "." ++ strLower ext

/-- The qualification predicate in the words of the specification: the entry
is in scope of the traversal, is a file, its case-normalized extension is in
the fixed audio set or the fixed video set, and, when a filter is supplied,
is also in the filter normalized entry-wise. -/
def qualifies (recursive : Bool) (rawFilter : Option (List String)) (e : Entry) : Bool :=
  globScope recursive e && e.isFile &&
  (decide (strLower (pySuffix (fileName e.path)) ∈ AUDIO_EXTENSIONS) ||
   decide (strLower (pySuffix (fileName e.path)) ∈ VIDEO_EXTENSIONS)) &&
  (match rawFilter with
   | none => true
   | some raw => decide (strLower (pySuffix (fileName e.path)) ∈ raw.map normalizeExt))

/-! ## Data model (`transcribe_file.py` lines 58-72 and whisper segments) -/

/-- One timed segment of the transcription.  The Python dict has keys
`start`, `end`, `text`; `end` is a Lean keyword, so the field is `stop`. -/
structure Segment where
  start : ℚ
  stop : ℚ
  text : String
deriving DecidableEq

/-- The `TranscriptionMetadata` dataclass (`transcribe_file.py` lines 58-68). -/
structure TranscriptionMetadata where
  detected_language : String
  model_name : String
  file_type : String
  file_size_mb : ℚ
  duration_seconds : ℚ
  processing_time_seconds : ℚ
  keep_traditional : Bool
  segments_count : Nat
deriving DecidableEq

/-! ## The transcription gateway and Python tuple unpacking

`transcribe_file` (lines 185-261) returns the 3-tuple
`(text, segments, metadata)` on both exits (lines 253 and 258) and wraps any
internal error into `RuntimeError("转写过程失败: ...")` (line 261).  The
engine behind it (model loading, audio/video routing, script conversion) is
abstracted as a `Gateway`. -/

/-- One component of a Python tuple returned by `transcribe_file`. -/
inductive PyVal where
  | str (s : String)
  | segs (l : List Segment)
  | meta (m : TranscriptionMetadata)
deriving DecidableEq

/-- The text component, for the writer calls (defensive default). -/
def PyVal.asText : PyVal → String
  | .str s => s
  | _ => ""

/-- The segments component, for the writer calls (defensive default). -/
def PyVal.asSegs : PyVal → List Segment
  | .segs l => l
  | _ => []

/-- Python's assignment `a, b = t`: succeeds exactly when the tuple `t` has
two components, otherwise raises a `ValueError`. -/
def unpack2 (vals : List PyVal) : Except String (PyVal × PyVal) :=
  match vals with
  | [a, b] => .ok (a, b)
  | vals =>
    if vals.length < 2 then .error "not enough values to unpack (expected 2, got 1)"
    else .error "too many values to unpack (expected 2)"

/-- The opaque transcription engine together with everything
`transcribe_file` does around it: on success it produces the triple of full
text, segments and metadata; on failure an error message. -/
abbrev Gateway := RelPath → Except String (String × List Segment × TranscriptionMetadata)

/-- `transcribe_file` as seen by a caller: the tuple
`(text, segments, metadata)` of lines 253/258 as its list of components, or
the wrapped `RuntimeError` of line 261. -/
def transcribe_file (gw : Gateway) (p : RelPath) : Except String (List PyVal) :=
  match gw p with
  | .ok (t, s, m) => .ok [PyVal.str t, PyVal.segs s, PyVal.meta m]
  | .error e => .error ("转写过程失败: " ++ e)

/-! ## Per-file processing (`transcribe_batch.py` lines 70-143) -/

/-- The three output formats of the CLI (`--formats`, choices txt/srt/json). -/
inductive Fmt where
  | txt
  | srt
  | json
deriving DecidableEq

/-- The file extension of a format. -/
def Fmt.ext : Fmt → String
  | .txt => "txt"
  | .srt => "srt"
  | .json => "json"

/-- The output path `output_dir / f"{base_name}.{ext}"` for one format of
one input file: the mirrored directory plus the stem with the new
extension. -/
def outFilePath (output_base : RelPath) (f : RelPath) (ext : String) : RelPath :=
  (output_base ++ f.dropLast) ++ [pyStem (fileName f) ++ "." ++ ext]

/-- The `existing_files` list of `process_single_file` (lines 103-109):
formats among the requested ones whose output file already exists, collected
in the fixed txt, srt, json order. -/
def existing_files (fs : FS) (output_base : RelPath) (f : RelPath)
    (formats : List Fmt) : List Fmt :=
  (if Fmt.txt ∈ formats ∧ outFilePath output_base f "txt" ∈ fs then [Fmt.txt] else []) ++
  (if Fmt.srt ∈ formats ∧ outFilePath output_base f "srt" ∈ fs then [Fmt.srt] else []) ++
  (if Fmt.json ∈ formats ∧ outFilePath output_base f "json" ∈ fs then [Fmt.json] else [])

/-- The condition under which the job takes the skip exit (lines 102-111):
the `force` flag is off and the `existing_files` list is as long as the
requested format list. -/
def skipCond (fs : FS) (f : RelPath) (output_base : RelPath)
    (formats : List Fmt) (force : Bool) : Prop :=
  ¬ force ∧ (existing_files fs output_base f formats).length = formats.length

instance (fs f ob formats force) : Decidable (skipCond fs f ob formats force) := by
  unfold skipCond
  infer_instance

/-- The skip message of line 113. -/
def skipMessage (rel : String) : String :=
  "跳过 " ++ rel ++ " (输出文件已存在)"

/-- The saved-format list rendered as in line 140 (`', '.join(saved_formats)`). -/
def savedFormatsString (formats : List Fmt) : String :=
  String.intercalate ", " (([Fmt.txt, Fmt.srt, Fmt.json].filter (· ∈ formats)).map Fmt.ext)

/-- The success message of line 140. -/
def doneMessage (rel savedFormats elapsed : String) : String :=
  "完成 " ++ rel ++ " [" ++ savedFormats ++ "] (耗时: " ++ elapsed ++ "秒)"

/-- The failure message of line 143. -/
def failMessage (rel err : String) : String :=
  "失败 " ++ rel ++ ": " ++ err

/-- The body of the `try` block of `process_single_file` (lines 92-140):
either `(success-flag, message, new filesystem)` or the exception it raises,
paired with the list of gateway invocations it performed.  `elapsed` stands
for the wall-clock string interpolated into the success message. -/
def job_try_body (gw : Gateway) (fs : FS) (f : RelPath) (output_base : RelPath)
    (formats : List Fmt) (force : Bool) (elapsed : String) :
    Except String (Bool × String × FS) × List RelPath :=
  let rel := relString f
  if skipCond fs f output_base formats force then
    (.ok (true, skipMessage rel, fs), [])
  else
    match transcribe_file gw f with
    | .error e => (.error e, [f])
    | .ok vals =>
      match unpack2 vals with
      | .error e => (.error e, [f])
      | .ok (v1, _v2) =>
        let _text := v1.asText
        let fs1 := if Fmt.txt ∈ formats then outFilePath output_base f "txt" :: fs else fs
        let fs2 := if Fmt.srt ∈ formats then outFilePath output_base f "srt" :: fs1 else fs1
        let fs3 := if Fmt.json ∈ formats then outFilePath output_base f "json" :: fs2 else fs2
        (.ok (true, doneMessage rel (savedFormatsString formats) elapsed, fs3), [f])

/-- The observable outcome of one per-file job. -/
structure JobOut where
  ok : Bool
  msg : String
  fs : FS
  calls : List RelPath
deriving DecidableEq

/-- `process_single_file`: the `try` body with its `except Exception` clause
(lines 142-143), which converts any exception into the `失败` result pair.
The function is total: no exception escapes the job. -/
def process_single_file (gw : Gateway) (fs : FS) (f : RelPath)
    (output_base : RelPath) (formats : List Fmt) (force : Bool)
    (elapsed : String) : JobOut :=
  match job_try_body gw fs f output_base formats force elapsed with
  | (.ok (b, m, fs1), calls) => ⟨b, m, fs1, calls⟩
  | (.error e, calls) => ⟨false, failMessage (relString f) e, fs, calls⟩

/-! ## Batch orchestration (`transcribe_batch.py` lines 148-260) -/

/-- The three counters of `batch_transcribe` (lines 210-212). -/
structure Summary where
  success : Nat
  skip : Nat
  fail : Nat
deriving DecidableEq

/-- One job outcome as classified by the counting code
(lines 224-230 and 249-255): a returned success flag is counted as skipped
exactly when the substring `跳过` occurs in the message. -/
inductive Outcome where
  | success
  | skipped
  | failed
deriving DecidableEq

/-- The classification applied to each completed job result. -/
def classify (r : Bool × String) : Outcome :=
  if r.1 then
    if hasSub r.2 "跳过" then Outcome.skipped else Outcome.success
  else Outcome.failed

/-- One counter update of the result-collection loop. -/
def tally (acc : Summary) (r : Bool × String) : Summary :=
  match classify r with
  | .skipped => { acc with skip := acc.skip + 1 }
  | .success => { acc with success := acc.success + 1 }
  | .failed => { acc with fail := acc.fail + 1 }

/-- The final counters after folding the loop over the completed results. -/
def summarize (rs : List (Bool × String)) : Summary :=
  rs.foldl tally ⟨0, 0, 0⟩

/-- Running the per-file jobs over a list of files in completion order,
threading the filesystem: the result pairs in order, the final filesystem,
and all gateway invocations. -/
def run_jobs (gw : Gateway) (clk : RelPath → String) (output_base : RelPath)
    (formats : List Fmt) (force : Bool) :
    List RelPath → FS → List (Bool × String) × FS × List RelPath
  | [], fs => ([], fs, [])
  | f :: rest, fs =>
    let j := process_single_file gw fs f output_base formats force (clk f)
    let r := run_jobs gw clk output_base formats force rest j.fs
    ((j.ok, j.msg) :: r.1, r.2.1, j.calls ++ r.2.2)

/-- The observable outcome of a whole batch run. -/
structure BatchOut where
  results : List (Bool × String)
  summary : Summary
  fs : FS
  calls : List RelPath
deriving DecidableEq

/-- `batch_transcribe` (lines 209-260), after discovery: with one worker the
files are processed strictly in catalog order (lines 215-230); with more
workers the jobs are the same but complete in a scheduler-chosen order
`order`, a permutation of the catalog (lines 231-255); the counters are
accumulated over completion order either way. -/
def batch_transcribe (gw : Gateway) (clk : RelPath → String) (fs : FS)
    (files : List RelPath) (output_base : RelPath) (formats : List Fmt)
    (force : Bool) (max_workers : Nat) (order : List RelPath) : BatchOut :=
  let executed := if max_workers = 1 then files else order
  let r := run_jobs gw clk output_base formats force executed fs
  ⟨r.1, summarize r.1, r.2.1, r.2.2⟩

/-! ## Structural lemmas about the per-file job -/

theorem unpack2_of_three (a b c : PyVal) :
    unpack2 [a, b, c] = .error "too many values to unpack (expected 2)" := rfl

theorem process_skip_eq (gw : Gateway) (fs : FS) (f : RelPath) (ob : RelPath)
    (formats : List Fmt) (force : Bool) (el : String)
    (h : skipCond fs f ob formats force) :
    process_single_file gw fs f ob formats force el
      = ⟨true, skipMessage (relString f), fs, []⟩ := by
  unfold process_single_file job_try_body
  rw [if_pos h]

theorem process_not_skip_eq (gw : Gateway) (fs : FS) (f : RelPath) (ob : RelPath)
    (formats : List Fmt) (force : Bool) (el : String)
    (h : ¬ skipCond fs f ob formats force) :
    process_single_file gw fs f ob formats force el
      = ⟨false,
          failMessage (relString f)
            (match gw f with
             | .ok _ => "too many values to unpack (expected 2)"
             | .error e => "转写过程失败: " ++ e),
          fs, [f]⟩ := by
  unfold process_single_file job_try_body
  rw [if_neg h]
  cases hgw : gw f with
  | ok v =>
    obtain ⟨t, s, m⟩ := v
    simp [transcribe_file, hgw, unpack2_of_three]
  | error e =>
    simp [transcribe_file, hgw]

theorem process_fs_eq (gw : Gateway) (fs : FS) (f : RelPath) (ob : RelPath)
    (formats : List Fmt) (force : Bool) (el : String) :
    (process_single_file gw fs f ob formats force el).fs = fs := by
  by_cases h : skipCond fs f ob formats force
  · rw [process_skip_eq gw fs f ob formats force el h]
  · rw [process_not_skip_eq gw fs f ob formats force el h]

theorem process_ok_iff (gw : Gateway) (fs : FS) (f : RelPath) (ob : RelPath)
    (formats : List Fmt) (force : Bool) (el : String) :
    (process_single_file gw fs f ob formats force el).ok = true ↔
      skipCond fs f ob formats force := by
  by_cases h : skipCond fs f ob formats force
  · rw [process_skip_eq gw fs f ob formats force el h]
    simpa using h
  · rw [process_not_skip_eq gw fs f ob formats force el h]
    simpa using h

/-- The result pair of one job against a fixed filesystem. -/
def jobPair (gw : Gateway) (clk : RelPath → String) (fs : FS) (ob : RelPath)
    (formats : List Fmt) (force : Bool) (f : RelPath) : Bool × String :=
  ((process_single_file gw fs f ob formats force (clk f)).ok,
   (process_single_file gw fs f ob formats force (clk f)).msg)

theorem run_jobs_spec (gw : Gateway) (clk : RelPath → String) (ob : RelPath)
    (formats : List Fmt) (force : Bool) (js : List RelPath) (fs : FS) :
    (run_jobs gw clk ob formats force js fs).1
        = js.map (jobPair gw clk fs ob formats force)
    ∧ (run_jobs gw clk ob formats force js fs).2.1 = fs := by
  induction js with
  | nil => exact ⟨rfl, rfl⟩
  | cons f rest ih =>
    simp only [run_jobs, List.map, process_fs_eq, jobPair]
    exact ⟨by rw [ih.1], ih.2⟩

theorem foldl_tally (rs : List (Bool × String)) (acc : Summary) :
    rs.foldl tally acc =
      ⟨acc.success + rs.countP (fun r => decide (classify r = Outcome.success)),
       acc.skip + rs.countP (fun r => decide (classify r = Outcome.skipped)),
       acc.fail + rs.countP (fun r => decide (classify r = Outcome.failed))⟩ := by
  induction rs generalizing acc with
  | nil => simp
  | cons r rest ih =>
    simp only [List.foldl_cons, List.countP_cons, ih]
    cases hc : classify r <;>
      simp [tally, hc] <;> omega

theorem summarize_eq (rs : List (Bool × String)) :
    summarize rs =
      ⟨rs.countP (fun r => decide (classify r = Outcome.success)),
       rs.countP (fun r => decide (classify r = Outcome.skipped)),
       rs.countP (fun r => decide (classify r = Outcome.failed))⟩ := by
  simpa [summarize] using foldl_tally rs ⟨0, 0, 0⟩

theorem summarize_perm {rs1 rs2 : List (Bool × String)} (h : rs1.Perm rs2) :
    summarize rs1 = summarize rs2 := by
  rw [summarize_eq, summarize_eq, h.countP_eq, h.countP_eq, h.countP_eq]

theorem job_try_body_not_skip (gw : Gateway) (fs : FS) (f : RelPath) (ob : RelPath)
    (formats : List Fmt) (force : Bool) (el : String)
    (h : ¬ skipCond fs f ob formats force) :
    job_try_body gw fs f ob formats force el
      = (.error (match gw f with
                 | .ok _ => "too many values to unpack (expected 2)"
                 | .error e => "转写过程失败: " ++ e), [f]) := by
  unfold job_try_body
  rw [if_neg h]
  cases hgw : gw f with
  | ok v =>
    obtain ⟨t, s, m⟩ := v
    simp [transcribe_file, hgw, unpack2_of_three]
  | error e =>
    simp [transcribe_file, hgw]

theorem job_body_error_process (gw : Gateway) (fs : FS) (f : RelPath) (ob : RelPath)
    (formats : List Fmt) (force : Bool) (el : String) (e : String)
    (h : (job_try_body gw fs f ob formats force el).1 = .error e) :
    process_single_file gw fs f ob formats force el
      = ⟨false, failMessage (relString f) e, fs, [f]⟩ := by
  by_cases hs : skipCond fs f ob formats force
  · exfalso
    unfold job_try_body at h
    rw [if_pos hs] at h
    simp at h
  · have hb := job_try_body_not_skip gw fs f ob formats force el hs
    rw [hb] at h
    simp only at h
    cases h
    rw [process_not_skip_eq gw fs f ob formats force el hs]

theorem hasSub_skipMessage (rel : String) :
    hasSub (skipMessage rel) "跳过" = true := by
  unfold skipMessage
  exact hasSub_append_right _ (hasSub_append_right _ (by decide))

theorem classify_skipMessage (rel : String) :
    classify (true, skipMessage rel) = Outcome.skipped := by
  unfold classify
  rw [if_pos rfl, if_pos (hasSub_skipMessage rel)]

theorem existing_files_length (fs : FS) (ob : RelPath) (f : RelPath)
    (formats : List Fmt) :
    (existing_files fs ob f formats).length =
      (if Fmt.txt ∈ formats ∧ outFilePath ob f "txt" ∈ fs then 1 else 0) +
      (if Fmt.srt ∈ formats ∧ outFilePath ob f "srt" ∈ fs then 1 else 0) +
      (if Fmt.json ∈ formats ∧ outFilePath ob f "json" ∈ fs then 1 else 0) := by
  unfold existing_files
  split_ifs <;> simp

theorem nodup_formats_length (formats : List Fmt) (hnd : formats.Nodup) :
    formats.length =
      (if Fmt.txt ∈ formats then 1 else 0) +
      (if Fmt.srt ∈ formats then 1 else 0) +
      (if Fmt.json ∈ formats then 1 else 0) := by
  induction formats with
  | nil => simp
  | cons k rest ih =>
    rw [List.nodup_cons] at hnd
    obtain ⟨hk, hrest⟩ := hnd
    have hr := ih hrest
    cases k <;> simp [List.mem_cons, hk] at hr ⊢ <;> omega

theorem forall_fmt_mem (formats : List Fmt) (P : Fmt → Prop) :
    (∀ fmt ∈ formats, P fmt) ↔
      ((Fmt.txt ∈ formats → P Fmt.txt) ∧ (Fmt.srt ∈ formats → P Fmt.srt) ∧
       (Fmt.json ∈ formats → P Fmt.json)) := by
  constructor
  · intro h
    exact ⟨fun hm => h _ hm, fun hm => h _ hm, fun hm => h _ hm⟩
  · rintro ⟨h1, h2, h3⟩ fmt hm
    cases fmt
    exacts [h1 hm, h2 hm, h3 hm]

theorem skipCond_iff_complete (fs : FS) (f : RelPath) (ob : RelPath)
    (formats : List Fmt) (hnd : formats.Nodup) :
    skipCond fs f ob formats false ↔
      ∀ fmt ∈ formats, outFilePath ob f fmt.ext ∈ fs := by
  unfold skipCond
  rw [existing_files_length, nodup_formats_length formats hnd, forall_fmt_mem]
  simp only [Bool.false_eq_true, not_false_iff, true_and]
  by_cases h1 : Fmt.txt ∈ formats <;>
  by_cases h2 : Fmt.srt ∈ formats <;>
  by_cases h3 : Fmt.json ∈ formats <;>
  by_cases p1 : outFilePath ob f "txt" ∈ fs <;>
  by_cases p2 : outFilePath ob f "srt" ∈ fs <;>
  by_cases p3 : outFilePath ob f "json" ∈ fs <;>
  simp [h1, h2, h3, p1, p2, p3, Fmt.ext]

/-- C7: for every root directory, recursion flag and optional extension
filter, discovery returns exactly the files (as a multiset) whose
case-normalized extension is in the fixed audio set or the fixed video set
and, when a filter is supplied, in the filter normalized to lower case with
a leading dot; the result is sorted in the lexicographic path order. -/
theorem c7_find_media_files_exact_and_sorted
    (dir : List Entry) (recursive : Bool) (rawFilter : Option (List String)) :
    (find_media_files dir recursive (rawFilter.map fun l => l.map normalizeExt)).Perm
      ((dir.filter (qualifies recursive rawFilter)).map Entry.path)
    ∧ List.Sorted pathLe
        (find_media_files dir recursive (rawFilter.map fun l => l.map normalizeExt)) := by
  constructor
  · unfold find_media_files sortPaths
    refine (List.perm_insertionSort pathLe _).trans ?_
    have hcongr :
        dir.filter (fun e =>
          globScope recursive e && e.isFile && (is_audio e.path || is_video e.path) &&
          (match rawFilter.map fun l => l.map normalizeExt with
           | none => true
           | some exts => exts.contains (strLower (pySuffix (fileName e.path)))))
        = dir.filter (qualifies recursive rawFilter) := by
      apply List.filter_congr
      intro e _
      unfold qualifies is_audio is_video
      cases rawFilter with
      | none => simp [List.contains]
      | some raw => simp [List.contains]
    rw [hcongr]
  · exact List.sorted_insertionSort pathLe _

/-! ## Subtitle line-wrapping (`save_as_srt`, `transcribe_file.py` lines 304-330)

The per-segment text transform: strip, then, when the text is longer than
`max_line_length`, scan outward from the midpoint (offsets 0..9, the
`+offset` side checked before the `-offset` side) for a break character and
insert a newline right after it; if no break character is found in the
window, leave the text unsplit. -/

/-- The break characters of line 321/324: space and `，。！？`. -/
def isBreakChar (c : Char) : Bool := [' ', '，', '。', '！', '？'].contains c

/-- Python's `str.strip` (whitespace from both ends). -/
def pyStrip (cs : List Char) : List Char :=
  ((cs.dropWhile Char.isWhitespace).reverse.dropWhile Char.isWhitespace).reverse

/-- The scanning loop `for offset in range(10)` of lines 320-326, returning
the index of the break character found, if any.  Out-of-range reads cannot
happen at the positions the guards allow; the default character `'x'` is not
a break character, so the guarded read is faithful. -/
def findBreak (t : List Char) (mid : Nat) (offset : Nat) : Option Nat :=
  if h : offset < 10 then
    if mid + offset < t.length ∧ isBreakChar (t.getD (mid + offset) 'x') = true then
      some (mid + offset)
    else if offset ≤ mid ∧ isBreakChar (t.getD (mid - offset) 'x') = true then
      some (mid - offset)
    else findBreak t mid (offset + 1)
  else none
termination_by 10 - offset

/-- The text-wrapping step of lines 316-326 applied to the stripped text. -/
def wrapSegmentText (t : List Char) (max_line_length : Nat) : List Char :=
  if max_line_length < t.length then
    match findBreak t (t.length / 2) 0 with
    | some p => t.take (p + 1) ++ '\n' :: t.drop (p + 1)
    | none => t
  else t

/-- Offset `o` hits a break character on the `+offset` side
(the side the loop checks first). -/
def plusHit (t : List Char) (o : Nat) : Prop :=
  t.length / 2 + o < t.length ∧ isBreakChar (t.getD (t.length / 2 + o) 'x') = true

/-- Offset `o` hits a break character on the `-offset` side. -/
def minusHit (t : List Char) (o : Nat) : Prop :=
  o ≤ t.length / 2 ∧ isBreakChar (t.getD (t.length / 2 - o) 'x') = true

/-- Offset `o` hits a break character on either side. -/
def hitAt (t : List Char) (o : Nat) : Prop := plusHit t o ∨ minusHit t o

/-- The split position the scan selects at offset `o`: the `+offset`
position when it hits, otherwise the `-offset` position. -/
def hitPos (t : List Char) (o : Nat) : Nat :=
  if t.length / 2 + o < t.length ∧ isBreakChar (t.getD (t.length / 2 + o) 'x') = true
  then t.length / 2 + o else t.length / 2 - o

instance (t : List Char) (o : Nat) : Decidable (plusHit t o) :=
  inferInstanceAs (Decidable (_ ∧ _))

instance (t : List Char) (o : Nat) : Decidable (minusHit t o) :=
  inferInstanceAs (Decidable (_ ∧ _))

instance (t : List Char) (o : Nat) : Decidable (hitAt t o) :=
  inferInstanceAs (Decidable (_ ∨ _))

theorem findBreak_step (t : List Char) (mid k : Nat) :
    findBreak t mid k =
      if k < 10 then
        if mid + k < t.length ∧ isBreakChar (t.getD (mid + k) 'x') = true then
          some (mid + k)
        else if k ≤ mid ∧ isBreakChar (t.getD (mid - k) 'x') = true then
          some (mid - k)
        else findBreak t mid (k + 1)
      else none := by
  rw [findBreak]
  rw [dite_eq_ite]

theorem findBreak_none (t : List Char) :
    ∀ (n k : Nat), 10 - k ≤ n → (∀ o, k ≤ o → o < 10 → ¬ hitAt t o) →
      findBreak t (t.length / 2) k = none := by
  intro n
  induction n with
  | zero =>
    intro k hk _h
    rw [findBreak_step, if_neg (by omega)]
  | succ m ih =>
    intro k hk h
    rw [findBreak_step]
    by_cases h10 : k < 10
    · rw [if_pos h10]
      have hnk := h k (le_refl k) h10
      have hplus : ¬ (t.length / 2 + k < t.length
          ∧ isBreakChar (t.getD (t.length / 2 + k) 'x') = true) :=
        fun hc => hnk (Or.inl hc)
      have hminus : ¬ (k ≤ t.length / 2
          ∧ isBreakChar (t.getD (t.length / 2 - k) 'x') = true) :=
        fun hc => hnk (Or.inr hc)
      rw [if_neg hplus, if_neg hminus]
      exact ih (k + 1) (by omega) (fun o ho h10o => h o (by omega) h10o)
    · rw [if_neg h10]

theorem findBreak_found (t : List Char) :
    ∀ (n k o₀ : Nat), 10 - k ≤ n → k ≤ o₀ → o₀ < 10 → hitAt t o₀ →
      (∀ o, k ≤ o → o < o₀ → ¬ hitAt t o) →
      findBreak t (t.length / 2) k = some (hitPos t o₀) := by
  intro n
  induction n with
  | zero =>
    intro k o₀ hn hk h10 _ _
    omega
  | succ m ih =>
    intro k o₀ hn hk h10 hhit hmin
    rw [findBreak_step, if_pos (by omega : k < 10)]
    by_cases hko : k = o₀
    · subst hko
      by_cases hplus : t.length / 2 + k < t.length
          ∧ isBreakChar (t.getD (t.length / 2 + k) 'x') = true
      · rw [if_pos hplus]
        unfold hitPos
        rw [if_pos hplus]
      · rw [if_neg hplus]
        have hminus : k ≤ t.length / 2
            ∧ isBreakChar (t.getD (t.length / 2 - k) 'x') = true := by
          rcases hhit with hp | hm
          · exact absurd hp hplus
          · exact hm
        rw [if_pos hminus]
        unfold hitPos
        rw [if_neg hplus]
    · have hnk : ¬ hitAt t k := hmin k (le_refl k) (by omega)
      have hplus : ¬ (t.length / 2 + k < t.length
          ∧ isBreakChar (t.getD (t.length / 2 + k) 'x') = true) :=
        fun hc => hnk (Or.inl hc)
      have hminus : ¬ (k ≤ t.length / 2
          ∧ isBreakChar (t.getD (t.length / 2 - k) 'x') = true) :=
        fun hc => hnk (Or.inr hc)
      rw [if_neg hplus, if_neg hminus]
      exact ih (k + 1) o₀ (by omega) (by omega) h10 hhit
        (fun o ho hlt => hmin o (by omega) hlt)

/-- C3: for a segment whose stripped text `t` is longer than
`max_line_length`, the writer scans offsets 0..9 outward from the midpoint
`len t / 2`, checking `mid + offset` before `mid - offset`; at the least
offset hitting a break character (space or `，。！？`) it inserts a newline
right after the selected position, producing exactly two lines whose
concatenation is the original text; when no offset below 10 hits a break
character the text stays a single unsplit line. -/
theorem c3_subtitle_line_wrap (s : Segment) (t : List Char)
    (max_line_length : Nat) (_ht : t = pyStrip s.text.toList)
    (hlen : max_line_length < t.length) (hnl : '\n' ∉ t) :
    ((∀ o, o < 10 → ¬ hitAt t o) →
      wrapSegmentText t max_line_length = t
      ∧ (wrapSegmentText t max_line_length).count '\n' = 0)
    ∧ (∀ o₀, o₀ < 10 → hitAt t o₀ → (∀ o, o < o₀ → ¬ hitAt t o) →
        wrapSegmentText t max_line_length
          = t.take (hitPos t o₀ + 1) ++ '\n' :: t.drop (hitPos t o₀ + 1)
        ∧ (wrapSegmentText t max_line_length).count '\n' = 1
        ∧ t.take (hitPos t o₀ + 1) ++ t.drop (hitPos t o₀ + 1) = t) := by
  constructor
  · intro hnone
    have hfb : findBreak t (t.length / 2) 0 = none :=
      findBreak_none t 10 0 (by omega) (fun o _ h10 => hnone o h10)
    have hw : wrapSegmentText t max_line_length = t := by
      unfold wrapSegmentText
      rw [if_pos hlen, hfb]
    exact ⟨hw, by rw [hw]; exact List.count_eq_zero.mpr hnl⟩
  · intro o₀ h10 hhit hmin
    have hfb : findBreak t (t.length / 2) 0 = some (hitPos t o₀) :=
      findBreak_found t 10 0 o₀ (by omega) (Nat.zero_le _) h10 hhit
        (fun o _ hlt => hmin o hlt)
    have hw : wrapSegmentText t max_line_length
        = t.take (hitPos t o₀ + 1) ++ '\n' :: t.drop (hitPos t o₀ + 1) := by
      unfold wrapSegmentText
      rw [if_pos hlen, hfb]
    refine ⟨hw, ?_, List.take_append_drop _ _⟩
    rw [hw]
    have htake : (t.take (hitPos t o₀ + 1)).count '\n' = 0 :=
      List.count_eq_zero.mpr (fun hc => hnl (List.take_subset _ _ hc))
    have hdrop : (t.drop (hitPos t o₀ + 1)).count '\n' = 0 :=
      List.count_eq_zero.mpr (fun hc => hnl (List.drop_subset _ _ hc))
    rw [List.count_append, htake, List.count_cons_self, hdrop]

/-- A 45-character text with a space exactly at its midpoint (index 22). -/
def wrapDemoA : List Char := List.replicate 22 'a' ++ ' ' :: List.replicate 22 'b'

/-- A 45-character text with no break character at all. -/
def wrapDemoB : List Char := List.replicate 45 'x'

/-- A segment carrying `wrapDemoA`. -/
def segDemoA : Segment := ⟨0, 1, String.mk wrapDemoA⟩

/-- A segment carrying `wrapDemoB`. -/
def segDemoB : Segment := ⟨0, 1, String.mk wrapDemoB⟩

/-- C3 witness: the spec's two 45-character test vectors, wrapped at 40,
through the theorem. -/
theorem c3_subtitle_line_wrap_witness :
    (wrapSegmentText wrapDemoA 40
        = wrapDemoA.take (hitPos wrapDemoA 0 + 1) ++ '\n' ::
            wrapDemoA.drop (hitPos wrapDemoA 0 + 1)
      ∧ (wrapSegmentText wrapDemoA 40).count '\n' = 1
      ∧ wrapDemoA.take (hitPos wrapDemoA 0 + 1) ++
          wrapDemoA.drop (hitPos wrapDemoA 0 + 1) = wrapDemoA)
    ∧ (wrapSegmentText wrapDemoB 40 = wrapDemoB
      ∧ (wrapSegmentText wrapDemoB 40).count '\n' = 0) := by
  constructor
  · exact (c3_subtitle_line_wrap segDemoA wrapDemoA 40 (by decide) (by decide)
      (by decide)).2 0 (by decide) (by decide)
      (fun o ho => absurd ho (Nat.not_lt_zero o))
  · exact (c3_subtitle_line_wrap segDemoB wrapDemoB 40 (by decide) (by decide)
      (by decide)).1 (by decide)

/-! ## Subtitle timestamps (`_format_timestamp`, `transcribe_file.py`
lines 332-339)

Python floats are modelled as exact rationals; `int(...)` is truncation
toward zero, `//` is floor division, `%` is `a - b * (a // b)` (the Python
float semantics for a positive modulus). -/

/-- Python `int(q)`: truncation toward zero. -/
def pyInt (q : ℚ) : ℤ := q.num.tdiv q.den

/-- Python `a // b` (floor division). -/
def pyFloorDiv (a b : ℚ) : ℚ := ((⌊a / b⌋ : ℤ) : ℚ)

/-- Python `a % b` for floats: `a - b * (a // b)`. -/
def pyMod (a b : ℚ) : ℚ := a - b * pyFloorDiv a b

/-- Zero-padding to width 2, as `f"{n:02d}"` renders a nonnegative value. -/
def pad2 (z : ℤ) : String :=
  if z < 10 then "0" ++ toString z else toString z

/-- Zero-padding to width 3, as `f"{n:03d}"` renders a nonnegative value. -/
def pad3 (z : ℤ) : String :=
  if z < 10 then "00" ++ toString z
  else if z < 100 then "0" ++ toString z
  else toString z

/-- `_format_timestamp` of lines 332-339, literally:
`hours = int(seconds // 3600)`, `minutes = int((seconds % 3600) // 60)`,
`secs = int(seconds % 60)`, `millis = int((seconds % 1) * 1000)`, rendered
as `HH:MM:SS,mmm`. -/
def format_timestamp (seconds : ℚ) : String :=
  let hours := pyInt (pyFloorDiv seconds 3600)
  let minutes := pyInt (pyFloorDiv (pyMod seconds 3600) 60)
  let secs := pyInt (pyMod seconds 60)
  let millis := pyInt (pyMod seconds 1 * 1000)
  pad2 hours ++ ":" ++ pad2 minutes ++ ":" ++ pad2 secs ++ "," ++ pad3 millis

/-- The four lines one cue of `save_as_srt` writes (lines 328-330): index,
timestamp range, wrapped text, blank separator. -/
def srtCueLines (i : Nat) (s : Segment) (max_line_length : Nat) : List String :=
  [toString i,
   format_timestamp s.start ++ " --> " ++ format_timestamp s.stop,
   String.mk (wrapSegmentText (pyStrip s.text.toList) max_line_length),
   ""]

theorem pyInt_intCast (z : ℤ) : pyInt ((z : ℤ) : ℚ) = z := by
  unfold pyInt
  rw [Rat.num_intCast, Rat.den_intCast]
  simp

theorem pyInt_eq_floor (q : ℚ) (h : 0 ≤ q) : pyInt q = ⌊q⌋ := by
  unfold pyInt
  rw [Rat.floor_def]
  exact Int.tdiv_eq_ediv (Rat.num_nonneg.mpr h) (Int.natCast_nonneg _)

theorem floor_q_div_nat (a : ℚ) (ha : 0 ≤ a) (n : ℕ) :
    ⌊a / (n : ℚ)⌋ = ⌊a⌋ / (n : ℤ) := by
  have h1 : (0 : ℚ) ≤ a / (n : ℚ) := div_nonneg ha (Nat.cast_nonneg n)
  rw [← Int.natCast_floor_eq_floor h1, ← Int.natCast_floor_eq_floor ha,
    Nat.floor_div_nat a n]
  exact Int.ofNat_ediv _ _

theorem format_timestamp_eq (s : ℚ) (hs : 0 ≤ s) :
    format_timestamp s
      = pad2 ⌊s / 3600⌋ ++ ":" ++ pad2 (⌊s / 60⌋ % 60) ++ ":"
        ++ pad2 (⌊s⌋ % 60) ++ "," ++ pad3 (⌊s * 1000⌋ % 1000) := by
  have h60 : (0 : ℚ) ≤ s / 60 := div_nonneg hs (by norm_num)
  have hfloor3600 : ⌊s / 3600⌋ = ⌊s / 60⌋ / 60 := by
    have heq : s / 3600 = (s / 60) / ((60 : ℕ) : ℚ) := by
      push_cast
      ring
    rw [heq, floor_q_div_nat (s / 60) h60 60]
    norm_num
  have hfloor60 : ⌊s / 60⌋ = ⌊s⌋ / 60 := by
    have heq : s / 60 = s / ((60 : ℕ) : ℚ) := by
      norm_num
    rw [heq, floor_q_div_nat s hs 60]
    norm_num
  have hfloor1000 : ⌊s⌋ = ⌊s * 1000⌋ / 1000 := by
    have heq : s = (s * 1000) / ((1000 : ℕ) : ℚ) := by
      push_cast
      ring
    conv_lhs => rw [heq]
    rw [floor_q_div_nat (s * 1000) (by positivity) 1000]
    norm_num
  have hhours : pyInt (pyFloorDiv s 3600) = ⌊s / 3600⌋ := by
    unfold pyFloorDiv
    exact pyInt_intCast _
  have hminutes : pyInt (pyFloorDiv (pyMod s 3600) 60) = ⌊s / 60⌋ % 60 := by
    unfold pyMod pyFloorDiv
    rw [pyInt_intCast]
    have hstep : (s - 3600 * ((⌊s / 3600⌋ : ℤ) : ℚ)) / 60
        = s / 60 - ((60 * ⌊s / 3600⌋ : ℤ) : ℚ) := by
      push_cast
      ring
    rw [hstep, Int.floor_sub_int, hfloor3600, Int.emod_def]
  have hsecs : pyInt (pyMod s 60) = ⌊s⌋ % 60 := by
    unfold pyMod pyFloorDiv
    have hmodnn : (0 : ℚ) ≤ s - 60 * ((⌊s / 60⌋ : ℤ) : ℚ) := by
      have hle : ((⌊s / 60⌋ : ℤ) : ℚ) ≤ s / 60 := Int.floor_le _
      have hmul := mul_le_mul_of_nonneg_left hle (by norm_num : (0 : ℚ) ≤ 60)
      have h6 : 60 * (s / 60) = s := by
        field_simp
      linarith [hmul, h6.ge]
    rw [pyInt_eq_floor _ hmodnn]
    have hstep : s - 60 * ((⌊s / 60⌋ : ℤ) : ℚ)
        = s - ((60 * ⌊s / 60⌋ : ℤ) : ℚ) := by
      push_cast
      ring
    rw [hstep, Int.floor_sub_int, hfloor60, Int.emod_def]
  have hmillis : pyInt (pyMod s 1 * 1000) = ⌊s * 1000⌋ % 1000 := by
    unfold pyMod pyFloorDiv
    have hdiv1 : s / (1 : ℚ) = s := div_one s
    have hmodnn : (0 : ℚ) ≤ (s - 1 * ((⌊s / 1⌋ : ℤ) : ℚ)) * 1000 := by
      rw [hdiv1]
      have hle : ((⌊s⌋ : ℤ) : ℚ) ≤ s := Int.floor_le s
      nlinarith
    rw [pyInt_eq_floor _ hmodnn]
    have hstep : (s - 1 * ((⌊s / 1⌋ : ℤ) : ℚ)) * 1000
        = s * 1000 - ((1000 * ⌊s / 1⌋ : ℤ) : ℚ) := by
      push_cast
      ring
    rw [hstep, Int.floor_sub_int, hdiv1, hfloor1000, Int.emod_def]
  show pad2 (pyInt (pyFloorDiv s 3600)) ++ ":"
      ++ pad2 (pyInt (pyFloorDiv (pyMod s 3600) 60)) ++ ":"
      ++ pad2 (pyInt (pyMod s 60)) ++ "," ++ pad3 (pyInt (pyMod s 1 * 1000)) = _
  rw [hhours, hminutes, hsecs, hmillis]

/-- C4: for every nonnegative number of seconds the formatter yields
`HH:MM:SS,mmm` with hours `⌊s/3600⌋`, minutes `⌊s/60⌋ mod 60`, seconds
`⌊s⌋ mod 60` (floored whole values) and milliseconds `⌊1000·s⌋ mod 1000`
(the fractional-second remainder truncated to three digits), each
zero-padded to 2 resp. 3 digits; in particular 3725.4 s formats as
`01:02:05,400` and 0 as `00:00:00,000`. -/
theorem c4_format_timestamp (s : ℚ) (hs : 0 ≤ s) :
    format_timestamp s
      = pad2 ⌊s / 3600⌋ ++ ":" ++ pad2 (⌊s / 60⌋ % 60) ++ ":"
        ++ pad2 (⌊s⌋ % 60) ++ "," ++ pad3 (⌊s * 1000⌋ % 1000)
    ∧ format_timestamp (3725.4 : ℚ) = "01:02:05,400"
    ∧ format_timestamp 0 = "00:00:00,000" := by
  refine ⟨format_timestamp_eq s hs, ?_, ?_⟩
  · rw [format_timestamp_eq (3725.4 : ℚ) (by norm_num)]
    have e1 : ⌊(3725.4 : ℚ) / 3600⌋ = 1 := by
      norm_num [Int.floor_eq_iff]
    have e2 : ⌊(3725.4 : ℚ) / 60⌋ % 60 = 2 := by
      norm_num [Int.floor_eq_iff]
    have e3 : ⌊(3725.4 : ℚ)⌋ % 60 = 5 := by
      norm_num [Int.floor_eq_iff]
    have e4 : ⌊(3725.4 : ℚ) * 1000⌋ % 1000 = 400 := by
      norm_num [Int.floor_eq_iff]
    rw [e1, e2, e3, e4]
    rfl
  · rw [format_timestamp_eq 0 le_rfl]
    have e1 : ⌊(0 : ℚ) / 3600⌋ = 0 := by norm_num
    have e2 : ⌊(0 : ℚ) / 60⌋ % 60 = 0 := by norm_num
    have e3 : ⌊(0 : ℚ)⌋ % 60 = 0 := by norm_num
    have e4 : ⌊(0 : ℚ) * 1000⌋ % 1000 = 0 := by norm_num
    rw [e1, e2, e3, e4]
    rfl

/-- C4 witness: the theorem applied at 3725.4 seconds. -/
theorem c4_format_timestamp_witness :
    (0 : ℚ) ≤ (3725.4 : ℚ)
    ∧ (format_timestamp (3725.4 : ℚ)
        = pad2 ⌊(3725.4 : ℚ) / 3600⌋ ++ ":" ++ pad2 (⌊(3725.4 : ℚ) / 60⌋ % 60) ++ ":"
          ++ pad2 (⌊(3725.4 : ℚ)⌋ % 60) ++ "," ++ pad3 (⌊(3725.4 : ℚ) * 1000⌋ % 1000)
      ∧ format_timestamp (3725.4 : ℚ) = "01:02:05,400"
      ∧ format_timestamp 0 = "00:00:00,000") :=
  ⟨by norm_num, c4_format_timestamp (3725.4 : ℚ) (by norm_num)⟩

/-! ## Video audio-extraction context manager
(`extract_audio_from_video`, `transcribe_file.py` lines 144-180, and
`_transcribe_video`, lines 280-291)

The context manager creates a named temporary file (unless that itself
raises), opens the video clip, raises `RuntimeError("视频文件中未找到音频轨道")`
when there is no audio track, writes the extracted audio, yields the
temporary path to the body (the transcription of the extracted audio, which
may itself raise — the exception is thrown back into the generator at the
`yield` and re-wrapped by its `except` clause), and in its `finally` block
closes the clip and removes the temporary file when it was created.  The
filesystem is the list of existing temp-file names; a removal that the
filesystem refuses is outside the model (the code swallows such errors with
`except: pass`). -/

/-- The possible behaviours of the collaborators of one extraction call. -/
structure VideoFixture where
  tmpCreateOk : Bool
  clipOpens : Bool
  hasAudioTrack : Bool
  audioWriteOk : Bool

/-- One run of the `with extract_audio_from_video(...)` block around a body:
the result of the call and the filesystem after the `finally` clause. -/
def extract_audio_run {α : Type} (fx : VideoFixture) (tempName : String)
    (fs : List String) (body : String → Except String α) :
    Except String α × List String :=
  if fx.tmpCreateOk = false then
    (.error "音频提取失败: 临时文件创建失败", fs)
  else
    let fs1 := tempName :: fs
    let r : Except String α :=
      if fx.clipOpens = false then .error "音频提取失败: 无法打开视频文件"
      else if fx.hasAudioTrack = false then
        .error "音频提取失败: 视频文件中未找到音频轨道"
      else if fx.audioWriteOk = false then .error "音频提取失败: 写入音频失败"
      else
        match body tempName with
        | .ok v => .ok v
        | .error e => .error ("音频提取失败: " ++ e)
    (r, fs1.erase tempName)

/-- `_transcribe_video`: the extraction context around the transcription of
the temporary audio file, errors re-wrapped as `视频转写失败` (line 291). -/
def transcribe_video_run {α : Type} (fx : VideoFixture) (tempName : String)
    (fs : List String) (transcribeTemp : String → Except String α) :
    Except String α × List String :=
  let r := extract_audio_run fx tempName fs transcribeTemp
  (match r.1 with
   | .ok v => .ok v
   | .error e => .error ("视频转写失败 - RuntimeError: " ++ e), r.2)

/-- C9: for every combination of collaborator outcomes — temporary-file
creation, clip opening, presence of an audio track, audio writing, and the
transcription body, each failing or succeeding — the filesystem after
`_transcribe_video` returns or raises equals the filesystem before the call:
the temporary intermediate audio file never survives the call, on any exit
path. -/
theorem c9_temp_audio_never_leaks {α : Type} (fx : VideoFixture)
    (tempName : String) (fs : List String)
    (transcribeTemp : String → Except String α)
    (hfresh : tempName ∉ fs) :
    (transcribe_video_run fx tempName fs transcribeTemp).2 = fs
    ∧ tempName ∉ (transcribe_video_run fx tempName fs transcribeTemp).2 := by
  have hfs : (transcribe_video_run fx tempName fs transcribeTemp).2 = fs := by
    unfold transcribe_video_run extract_audio_run
    by_cases hc : fx.tmpCreateOk = false
    · rw [if_pos hc]
    · rw [if_neg hc]
      simp only
      rw [List.erase_cons_head]
  exact ⟨hfs, by rw [hfs]; exact hfresh⟩

/-- C9 witness: a body that raises (a transcription failure on the extracted
audio), with every other collaborator succeeding, leaves no temporary file. -/
theorem c9_temp_audio_never_leaks_witness :
    ("tmp.wav" ∉ (["video.mp4"] : List String))
    ∧ (transcribe_video_run ⟨true, true, true, true⟩ "tmp.wav" ["video.mp4"]
          (fun _ => (.error "音频转写失败 - RuntimeError: boom" : Except String String))).2
        = ["video.mp4"]
    ∧ "tmp.wav" ∉ (transcribe_video_run ⟨true, true, true, true⟩ "tmp.wav"
          ["video.mp4"]
          (fun _ => (.error "音频转写失败 - RuntimeError: boom" : Except String String))).2 := by
  have h := c9_temp_audio_never_leaks ⟨true, true, true, true⟩ "tmp.wav"
    ["video.mp4"]
    (fun _ => (.error "音频转写失败 - RuntimeError: boom" : Except String String))
    (by decide)
  exact ⟨by decide, h.1, h.2⟩

/-! ## Concrete fixtures for evaluated runs -/

/-- A concrete metadata record. -/
def metaDemo : TranscriptionMetadata := ⟨"zh", "base", "audio", 1, 2, 1, false, 1⟩

/-- A gateway that succeeds on every file. -/
def gwOk : Gateway := fun _ => .ok ("你好", [⟨0, 2, "你好"⟩], metaDemo)

/-- A gateway that raises on every file. -/
def gwFail : Gateway := fun _ => .error "boom"

/-- A fixed wall-clock string. -/
def clk0 : RelPath → String := fun _ => "0.0"

/-- C1 (defect witnessed): in the spec scenario — a directory with exactly
one `.mp3` and one `.mp4`, recursive=false, formats txt and srt,
workerCount=2, force=false, empty output directory, a gateway that succeeds
on both files — the code does NOT record 2 Success results and does NOT
create 4 output files: `process_single_file` unpacks the 3-tuple returned by
`transcribe_file` into two variables, so every non-skipped file raises
`ValueError: too many values to unpack (expected 2)` and the run ends with
success=0, skipped=0, failed=2 and no output file written. -/
theorem c1_mp3_mp4_scenario_fails :
    find_media_files [⟨["a.mp3"], true⟩, ⟨["b.mp4"], true⟩] false none
        = [["a.mp3"], ["b.mp4"]]
    ∧ (batch_transcribe gwOk clk0 [] [["a.mp3"], ["b.mp4"]] ["out"]
          [Fmt.txt, Fmt.srt] false 2 [["a.mp3"], ["b.mp4"]]).results
        = [(false, failMessage "a.mp3" "too many values to unpack (expected 2)"),
           (false, failMessage "b.mp4" "too many values to unpack (expected 2)")]
    ∧ (batch_transcribe gwOk clk0 [] [["a.mp3"], ["b.mp4"]] ["out"]
          [Fmt.txt, Fmt.srt] false 2 [["a.mp3"], ["b.mp4"]]).summary = ⟨0, 0, 2⟩
    ∧ (batch_transcribe gwOk clk0 [] [["a.mp3"], ["b.mp4"]] ["out"]
          [Fmt.txt, Fmt.srt] false 2 [["a.mp3"], ["b.mp4"]]).fs = [] :=
  ⟨by decide, by decide, by decide, by decide⟩

/-- C2: for every batch run and every discovered file, an exception raised
inside the per-file try body (transcription or writing) is caught there: the
job returns a Failed pair carrying the exception text in its `失败` message,
the batch still produces exactly one result per discovered file, and the
failed file's result is among them — no failure aborts the batch or escapes
`process_single_file`, which is a total function. -/
theorem c2_per_file_exception_contained
    (gw : Gateway) (clk : RelPath → String) (fs : FS) (files : List RelPath)
    (ob : RelPath) (formats : List Fmt) (force : Bool)
    (w : Nat) (order : List RelPath) (hperm : order.Perm files) :
    (batch_transcribe gw clk fs files ob formats force w order).results.length
        = files.length
    ∧ ∀ f ∈ files, ∀ e : String,
        (job_try_body gw fs f ob formats force (clk f)).1 = .error e →
        process_single_file gw fs f ob formats force (clk f)
            = ⟨false, failMessage (relString f) e, fs, [f]⟩
        ∧ (false, failMessage (relString f) e)
            ∈ (batch_transcribe gw clk fs files ob formats force w order).results := by
  have hexec : (if w = 1 then files else order).Perm files := by
    by_cases hw : w = 1
    · rw [if_pos hw]
    · rw [if_neg hw]
      exact hperm
  have hres : (batch_transcribe gw clk fs files ob formats force w order).results
      = (if w = 1 then files else order).map (jobPair gw clk fs ob formats force) :=
    (run_jobs_spec gw clk ob formats force _ fs).1
  constructor
  · rw [hres, List.length_map]
    exact hexec.length_eq
  · intro f hf e hbody
    have hp := job_body_error_process gw fs f ob formats force (clk f) e hbody
    refine ⟨hp, ?_⟩
    rw [hres]
    have hfe : f ∈ (if w = 1 then files else order) := hexec.mem_iff.mpr hf
    have : jobPair gw clk fs ob formats force f = (false, failMessage (relString f) e) := by
      unfold jobPair
      rw [hp]
    rw [← this]
    exact List.mem_map_of_mem _ hfe

/-- C2 witness: a run over one file with a raising gateway, evaluated. -/
theorem c2_per_file_exception_contained_witness :
    ([["a.mp3"]] : List RelPath).Perm [["a.mp3"]]
    ∧ ((job_try_body gwFail [] ["a.mp3"] ["out"] [Fmt.txt] false (clk0 ["a.mp3"])).1
        = .error "转写过程失败: boom")
    ∧ (batch_transcribe gwFail clk0 [] [["a.mp3"]] ["out"] [Fmt.txt] false 1
          [["a.mp3"]]).results.length = 1
    ∧ (false, failMessage (relString ["a.mp3"]) "转写过程失败: boom")
        ∈ (batch_transcribe gwFail clk0 [] [["a.mp3"]] ["out"] [Fmt.txt] false 1
            [["a.mp3"]]).results := by
  have h := c2_per_file_exception_contained gwFail clk0 [] [["a.mp3"]] ["out"]
    [Fmt.txt] false 1 [["a.mp3"]] (List.Perm.refl _)
  exact ⟨List.Perm.refl _, rfl, h.1,
    (h.2 ["a.mp3"] (by decide) "转写过程失败: boom" rfl).2⟩

/-- C5: with force=false, a job is recorded as Skipped (success flag with a
`跳过` message) exactly when an output file exists for every requested
format — a partially complete set is not complete — and for a skipped file
the transcription gateway is never invoked. -/
theorem c5_skip_iff_outputs_complete
    (gw : Gateway) (fs : FS) (f : RelPath) (ob : RelPath) (formats : List Fmt)
    (el : String) (hnd : formats.Nodup) :
    (((process_single_file gw fs f ob formats false el).ok = true
      ∧ hasSub (process_single_file gw fs f ob formats false el).msg "跳过" = true)
      ↔ ∀ fmt ∈ formats, outFilePath ob f fmt.ext ∈ fs)
    ∧ ((∀ fmt ∈ formats, outFilePath ob f fmt.ext ∈ fs) →
        (process_single_file gw fs f ob formats false el).calls = []) := by
  by_cases hs : skipCond fs f ob formats false
  · rw [process_skip_eq gw fs f ob formats false el hs]
    have hc := (skipCond_iff_complete fs f ob formats hnd).mp hs
    exact ⟨⟨fun _ => hc, fun _ => ⟨rfl, hasSub_skipMessage _⟩⟩, fun _ => rfl⟩
  · rw [process_not_skip_eq gw fs f ob formats false el hs]
    have hc : ¬ ∀ fmt ∈ formats, outFilePath ob f fmt.ext ∈ fs := fun h =>
      hs ((skipCond_iff_complete fs f ob formats hnd).mpr h)
    exact ⟨⟨fun h => absurd h.1 (by simp), fun h => absurd h hc⟩,
      fun h => absurd h hc⟩

/-- C5 witness: one file whose txt output exists is skipped without a
gateway call; the theorem instantiated at that input. -/
theorem c5_skip_iff_outputs_complete_witness :
    ([Fmt.txt] : List Fmt).Nodup
    ∧ ((((process_single_file gwOk [outFilePath ["out"] ["a.mp3"] "txt"] ["a.mp3"]
            ["out"] [Fmt.txt] false "0.0").ok = true
        ∧ hasSub (process_single_file gwOk [outFilePath ["out"] ["a.mp3"] "txt"]
            ["a.mp3"] ["out"] [Fmt.txt] false "0.0").msg "跳过" = true)
        ↔ ∀ fmt ∈ ([Fmt.txt] : List Fmt),
            outFilePath ["out"] ["a.mp3"] fmt.ext
              ∈ [outFilePath ["out"] ["a.mp3"] "txt"])
      ∧ ((∀ fmt ∈ ([Fmt.txt] : List Fmt),
            outFilePath ["out"] ["a.mp3"] fmt.ext
              ∈ [outFilePath ["out"] ["a.mp3"] "txt"]) →
          (process_single_file gwOk [outFilePath ["out"] ["a.mp3"] "txt"] ["a.mp3"]
              ["out"] [Fmt.txt] false "0.0").calls = [])) :=
  ⟨by decide,
   c5_skip_iff_outputs_complete gwOk [outFilePath ["out"] ["a.mp3"] "txt"]
     ["a.mp3"] ["out"] [Fmt.txt] "0.0" (by decide)⟩

/-- C6: the final summary counts do not depend on the worker count or on the
completion order of the concurrent jobs: any two runs over the same catalog,
with any worker counts and any completion orders, produce the same
summary — in particular the sequential branch (workerCount 1) and the
thread-pool branch agree. -/
theorem c6_summary_order_and_worker_independent
    (gw : Gateway) (clk : RelPath → String) (fs : FS) (files : List RelPath)
    (ob : RelPath) (formats : List Fmt) (force : Bool)
    (w1 w2 : Nat) (order1 order2 : List RelPath)
    (h1 : order1.Perm files) (h2 : order2.Perm files) :
    (batch_transcribe gw clk fs files ob formats force w1 order1).summary
      = (batch_transcribe gw clk fs files ob formats force w2 order2).summary := by
  have key : ∀ (w : Nat) (order : List RelPath), order.Perm files →
      (batch_transcribe gw clk fs files ob formats force w order).summary
        = summarize (files.map (jobPair gw clk fs ob formats force)) := by
    intro w order hp
    have hexec : (if w = 1 then files else order).Perm files := by
      by_cases hw : w = 1
      · rw [if_pos hw]
      · rw [if_neg hw]
        exact hp
    show summarize (run_jobs gw clk ob formats force
        (if w = 1 then files else order) fs).1 = _
    rw [(run_jobs_spec gw clk ob formats force _ fs).1]
    exact summarize_perm (hexec.map _)
  rw [key w1 order1 h1, key w2 order2 h2]

/-- C6 witness: sequential and two-worker runs over the same two files, in
opposite completion orders, compared through the theorem. -/
theorem c6_summary_order_and_worker_independent_witness :
    ([["b.mp4"], ["a.mp3"]] : List RelPath).Perm [["a.mp3"], ["b.mp4"]]
    ∧ (batch_transcribe gwOk clk0 [] [["a.mp3"], ["b.mp4"]] ["out"] [Fmt.txt]
          false 1 [["a.mp3"], ["b.mp4"]]).summary
        = (batch_transcribe gwOk clk0 [] [["a.mp3"], ["b.mp4"]] ["out"] [Fmt.txt]
            false 2 [["b.mp4"], ["a.mp3"]]).summary :=
  ⟨List.Perm.swap _ _ _,
   c6_summary_order_and_worker_independent gwOk clk0 [] [["a.mp3"], ["b.mp4"]]
     ["out"] [Fmt.txt] false 1 2 [["a.mp3"], ["b.mp4"]] [["b.mp4"], ["a.mp3"]]
     (List.Perm.refl _) (List.Perm.swap _ _ _)⟩

/-- C8: if a first run with force=false finished with every job reporting a
success flag, then a second run over the resulting filesystem with the same
catalog and formats records Skipped for every file: its summary is
(success 0, skipped N, failed 0) for the N discovered files. -/
theorem c8_second_run_skips_everything
    (gw1 gw2 : Gateway) (clk1 clk2 : RelPath → String) (fs : FS)
    (files : List RelPath) (ob : RelPath) (formats : List Fmt)
    (w1 w2 : Nat) (order1 order2 : List RelPath)
    (hp1 : order1.Perm files) (hp2 : order2.Perm files)
    (hok : ∀ r ∈ (batch_transcribe gw1 clk1 fs files ob formats false w1 order1).results,
        r.1 = true) :
    (batch_transcribe gw2 clk2
        (batch_transcribe gw1 clk1 fs files ob formats false w1 order1).fs
        files ob formats false w2 order2).summary
      = ⟨0, files.length, 0⟩ := by
  have hexec1 : (if w1 = 1 then files else order1).Perm files := by
    by_cases hw : w1 = 1
    · rw [if_pos hw]
    · rw [if_neg hw]
      exact hp1
  have hexec2 : (if w2 = 1 then files else order2).Perm files := by
    by_cases hw : w2 = 1
    · rw [if_pos hw]
    · rw [if_neg hw]
      exact hp2
  have hres1 : (batch_transcribe gw1 clk1 fs files ob formats false w1 order1).results
      = (if w1 = 1 then files else order1).map (jobPair gw1 clk1 fs ob formats false) :=
    (run_jobs_spec gw1 clk1 ob formats false (if w1 = 1 then files else order1) fs).1
  -- the first run leaves the filesystem unchanged
  have hfs1 : (batch_transcribe gw1 clk1 fs files ob formats false w1 order1).fs = fs :=
    (run_jobs_spec gw1 clk1 ob formats false (if w1 = 1 then files else order1) fs).2
  -- every file satisfied the skip condition against fs
  have hskip : ∀ f ∈ files, skipCond fs f ob formats false := by
    intro f hf
    have hfe : f ∈ (if w1 = 1 then files else order1) := hexec1.mem_iff.mpr hf
    have hmem : jobPair gw1 clk1 fs ob formats false f
        ∈ (batch_transcribe gw1 clk1 fs files ob formats false w1 order1).results := by
      rw [hres1]
      exact List.mem_map_of_mem _ hfe
    have := hok _ hmem
    exact (process_ok_iff gw1 fs f ob formats false (clk1 f)).mp this
  -- the second run skips every file
  have hres2 : (batch_transcribe gw2 clk2
        (batch_transcribe gw1 clk1 fs files ob formats false w1 order1).fs
        files ob formats false w2 order2).results
      = (if w2 = 1 then files else order2).map (jobPair gw2 clk2
          (batch_transcribe gw1 clk1 fs files ob formats false w1 order1).fs
          ob formats false) :=
    (run_jobs_spec gw2 clk2 ob formats false (if w2 = 1 then files else order2)
      (batch_transcribe gw1 clk1 fs files ob formats false w1 order1).fs).1
  have hsum : (batch_transcribe gw2 clk2
        (batch_transcribe gw1 clk1 fs files ob formats false w1 order1).fs
        files ob formats false w2 order2).summary
      = summarize ((if w2 = 1 then files else order2).map (jobPair gw2 clk2 fs ob
          formats false)) := by
    have : (batch_transcribe gw2 clk2
        (batch_transcribe gw1 clk1 fs files ob formats false w1 order1).fs
        files ob formats false w2 order2).summary
      = summarize (batch_transcribe gw2 clk2
          (batch_transcribe gw1 clk1 fs files ob formats false w1 order1).fs
          files ob formats false w2 order2).results := rfl
    rw [this, hres2, hfs1]
  rw [hsum, summarize_eq]
  have hall : ∀ r ∈ (if w2 = 1 then files else order2).map
      (jobPair gw2 clk2 fs ob formats false), classify r = Outcome.skipped := by
    intro r hr
    rcases List.mem_map.mp hr with ⟨f, hf, rfl⟩
    have hsf := hskip f (hexec2.mem_iff.mp hf)
    unfold jobPair
    rw [process_skip_eq gw2 fs f ob formats false (clk2 f) hsf]
    exact classify_skipMessage _
  have hlen : ((if w2 = 1 then files else order2).map
      (jobPair gw2 clk2 fs ob formats false)).length = files.length := by
    rw [List.length_map]
    exact hexec2.length_eq
  have hzero1 : ((if w2 = 1 then files else order2).map
      (jobPair gw2 clk2 fs ob formats false)).countP
        (fun r => decide (classify r = Outcome.success)) = 0 := by
    rw [List.countP_eq_zero]
    intro r hr
    simp [hall r hr]
  have hzero2 : ((if w2 = 1 then files else order2).map
      (jobPair gw2 clk2 fs ob formats false)).countP
        (fun r => decide (classify r = Outcome.failed)) = 0 := by
    rw [List.countP_eq_zero]
    intro r hr
    simp [hall r hr]
  have hfull : ((if w2 = 1 then files else order2).map
      (jobPair gw2 clk2 fs ob formats false)).countP
        (fun r => decide (classify r = Outcome.skipped))
      = files.length := by
    rw [← hlen]
    rw [List.countP_eq_length]
    intro r hr
    simp [hall r hr]
  rw [hzero1, hzero2, hfull]

/-- C8 witness: both outputs pre-exist, so the first run skips (every flag
true) and the theorem yields an all-skip second run. -/
theorem c8_second_run_skips_everything_witness :
    (∀ r ∈ (batch_transcribe gwOk clk0 [outFilePath ["out"] ["a.mp3"] "txt"]
        [["a.mp3"]] ["out"] [Fmt.txt] false 1 [["a.mp3"]]).results, r.1 = true)
    ∧ (batch_transcribe gwOk clk0
        (batch_transcribe gwOk clk0 [outFilePath ["out"] ["a.mp3"] "txt"]
          [["a.mp3"]] ["out"] [Fmt.txt] false 1 [["a.mp3"]]).fs
        [["a.mp3"]] ["out"] [Fmt.txt] false 1 [["a.mp3"]]).summary
      = ⟨0, (([["a.mp3"]] : List RelPath)).length, 0⟩ :=
  ⟨by decide,
   c8_second_run_skips_everything gwOk gwOk clk0 clk0
     [outFilePath ["out"] ["a.mp3"] "txt"] [["a.mp3"]] ["out"] [Fmt.txt]
     1 1 [["a.mp3"]] [["a.mp3"]] (List.Perm.refl _) (List.Perm.refl _)
     (by decide)⟩

/-- C10: the orchestrator decides Skipped versus Success for a
success-flagged job purely by whether the substring `跳过` occurs in the
job's message (first conjunct: the classification is invariant under any two
messages agreeing on that substring test); consequently the success-path
message `完成 <relative path> [...] (耗时: ...秒)` of a file whose relative
path contains `跳过` is tallied as skipped, not as a success. -/
theorem c10_skip_substring_classification
    (rel savedFormats elapsed : String) (acc : Summary)
    (hrel : hasSub rel "跳过" = true) :
    (∀ (b : Bool) (m1 m2 : String), hasSub m1 "跳过" = hasSub m2 "跳过" →
        classify (b, m1) = classify (b, m2))
    ∧ tally acc (true, doneMessage rel savedFormats elapsed)
        = { acc with skip := acc.skip + 1 } := by
  constructor
  · intro b m1 m2 hm
    unfold classify
    rw [hm]
  · have hmsg : hasSub (doneMessage rel savedFormats elapsed) "跳过" = true := by
      unfold doneMessage
      exact hasSub_append_right _ (hasSub_append_right _ (hasSub_append_right _
        (hasSub_append_right _ (hasSub_append_right _
          (hasSub_append_left _ hrel)))))
    unfold tally classify
    rw [if_pos rfl, if_pos hmsg]

/-- C10 witness: a successfully transcribed file named `跳过记录.mp3` is
counted as skipped by the tallying code. -/
theorem c10_skip_substring_classification_witness :
    hasSub "跳过记录.mp3" "跳过" = true
    ∧ ((∀ (b : Bool) (m1 m2 : String), hasSub m1 "跳过" = hasSub m2 "跳过" →
          classify (b, m1) = classify (b, m2))
       ∧ tally ⟨0, 0, 0⟩ (true, doneMessage "跳过记录.mp3" "txt, srt" "1.0")
          = { success := 0, skip := 1, fail := 0 }) :=
  ⟨by decide,
   c10_skip_substring_classification "跳过记录.mp3" "txt, srt" "1.0" ⟨0, 0, 0⟩
     (by decide)⟩

end WhisperTools
